import Mathlib

/-!
# hyperglass: cache store, SSH auth/connection, query controller, directory bootstrap

A shallow embedding of the Go sources under `core/` and theorems about them.

Conventions used throughout:

* a Go `string` and a Go `[]byte` are both a Lean `String`; `len(s)` is `s.utf8ByteSize`;
* a Go `error` result is an `Option` of an error type, `none` being `nil`;
* a Go function that can dereference a nil pointer returns `Option _`, and `none` is the
  run-time panic;
* state held outside the process (the cache file, the directories on disk, the remote SSH
  peer) is passed explicitly.
-/

set_option autoImplicit false

namespace Hyperglass

/-! ## `go.etcd.io/bbolt`: the part of the library `core/infrastructure/cache` calls -/

namespace bbolt

/-- The errors `Bucket.Put` and `Tx.CreateBucket` return. -/
inductive Error where
  | ErrBucketNameRequired
  | ErrBucketExists
  | ErrKeyRequired
  | ErrKeyTooLarge
  | ErrValueTooLarge
  deriving DecidableEq, Repr

/-- The constant `bbolt.MaxKeySize`. -/
def MaxKeySize : Nat := 32768

/-- The constant `bbolt.MaxValueSize`, `(1 << 31) - 2`. -/
def MaxValueSize : Nat := 2 ^ 31 - 2

/-- A bucket: the key/value pairs it holds, at most one pair per key. -/
structure Bucket where
  pairs : List (String × String)
  deriving DecidableEq, Repr

/-- Value of the first pair with the given key. -/
def lookup (key : String) : List (String × String) → Option String
  | [] => none
  | (k, v) :: rest => if k = key then some v else lookup key rest

/-- Replace the value of the pair with the given key, or add the pair. -/
def upsert (key value : String) : List (String × String) → List (String × String)
  | [] => [(key, value)]
  | (k, v) :: rest => if k = key then (key, value) :: rest else (k, v) :: upsert key value rest

/-- `Bucket.Get(key)`: the value stored under `key`, `nil` when the key does not exist. -/
def Bucket.Get (b : Bucket) (key : String) : Option String :=
  lookup key b.pairs

/-- `Bucket.Put(key, value)`: refuses a blank key, a key over `MaxKeySize` bytes and a value
over `MaxValueSize` bytes; otherwise sets the value, overwriting a previous one. -/
def Bucket.Put (b : Bucket) (key value : String) : Except Error Bucket :=
  if key.utf8ByteSize = 0 then .error .ErrKeyRequired
  else if key.utf8ByteSize > MaxKeySize then .error .ErrKeyTooLarge
  else if value.utf8ByteSize > MaxValueSize then .error .ErrValueTooLarge
  else .ok { pairs := upsert key value b.pairs }

/-- A database file: its top-level buckets by name. A transaction works on a value of this
type too, so `Tx` is the same type. -/
structure DB where
  buckets : List (String × Bucket)
  deriving DecidableEq, Repr

/-- Bucket of the first entry with the given name. -/
def findBucket (name : String) : List (String × Bucket) → Option Bucket
  | [] => none
  | (n, b) :: rest => if n = name then some b else findBucket name rest

/-- Store `b` in place of the bucket called `name`. -/
def replaceBucket (name : String) (b : Bucket) : List (String × Bucket) → List (String × Bucket)
  | [] => []
  | (n, old) :: rest =>
    if n = name then (n, b) :: rest else (n, old) :: replaceBucket name b rest

/-- `Tx.Bucket(name)`: the bucket, `nil` when it does not exist. -/
def DB.Bucket (tx : DB) (name : String) : Option Bucket :=
  findBucket name tx.buckets

/-- `Tx.CreateBucket(name)`: refuses a blank name and an existing bucket. -/
def DB.CreateBucket (tx : DB) (name : String) : Except Error DB :=
  if name.utf8ByteSize = 0 then .error .ErrBucketNameRequired
  else if (findBucket name tx.buckets).isSome then .error .ErrBucketExists
  else .ok { buckets := tx.buckets ++ [(name, { pairs := [] })] }

/-- `DB.View(fn)`: runs `fn` in a read-only transaction. `fn` yields the variables it
assigns in the enclosing function together with its error; the database is untouched. -/
def DB.View {α : Type} (db : DB) (fn : DB → Option (α × Option Error)) :
    Option (α × Option Error) :=
  fn db

/-- `DB.Update(fn)`: runs `fn` in a read-write transaction, committed when `fn` returns
`nil` and rolled back when it returns an error. -/
def DB.Update (db : DB) (fn : DB → Option (DB × Option Error)) : Option (DB × Option Error) :=
  match fn db with
  | none => none
  | some (tx, none) => some (tx, none)
  | some (_, some e) => some (db, some e)

end bbolt

/-! ## `core/infrastructure/cache/cache.go` -/

namespace cache

/-- The struct `Cache`. `File` is the backing file, modelled by the database it holds on
disk; `Bucket` is the bucket name. The field `Backend` (only used by `Destroy`) is left out.
The file is taken to stay on disk, so `bbolt.Open(c.File.Name(), ...)` succeeds. -/
structure Cache where
  File : bbolt.DB
  Bucket : String
  deriving DecidableEq, Repr

/-- `Cache.Transaction(cb)`: opens the database in the backing file, runs `cb` on it and
closes it again; what `cb` committed is in the file afterwards. The deferred
`c.File.Close()` acts on a handle `New` closed already and changes nothing on disk. -/
def Cache.Transaction {α : Type} (c : Cache)
    (cb : bbolt.DB → Option (bbolt.DB × α × Option bbolt.Error)) :
    Option (Cache × α × Option bbolt.Error) :=
  match cb c.File with
  | none => none
  | some (db, a, err) => some ({ c with File := db }, a, err)

/-- `Cache.Get(key)`: the cache afterwards, `value` and `err`. `tx.Bucket` returning `nil`
makes `b.Get` panic. `string(v)` of a `nil` slice is the empty string. -/
def Cache.Get (c : Cache) (key : String) : Option (Cache × String × Option bbolt.Error) :=
  c.Transaction fun db =>
    match db.View (fun tx =>
        match tx.Bucket c.Bucket with
        | none => none
        | some b => some ((b.Get key).getD "", none)) with
    | none => none
    | some (value, err) => some (db, value, err)

/-- `Cache.Set(key, value)`: the cache afterwards and `err`. -/
def Cache.Set (c : Cache) (key value : String) : Option (Cache × Option bbolt.Error) :=
  match c.Transaction (fun db =>
      match db.Update (fun tx =>
          match tx.Bucket c.Bucket with
          | none => none
          | some b =>
            match b.Put key value with
            | .error e => some (tx, some e)
            | .ok b' => some ({ buckets := bbolt.replaceBucket c.Bucket b' tx.buckets }, none)) with
      | none => none
      | some (db', err) => some (db', (), err)) with
  | none => none
  | some (c', _, err) => some (c', err)

/-- `New(name)`: a fresh temporary directory and file, and in the file a database in which
`db.Update` creates the bucket `name`; the error of `CreateBucket` is the error of `New`.
Creating the directory and the file is taken to succeed. -/
def New (name : String) : Except bbolt.Error Cache :=
  let db : bbolt.DB := { buckets := [] }
  match db.CreateBucket name with
  | .error e => .error e
  | .ok db' => .ok { File := db', Bucket := name }

/-- Whether the bucket of the cache is in its file. -/
def Cache.Ready (c : Cache) : Bool :=
  (c.File.Bucket c.Bucket).isSome

/-- The caches a program can hold: the result of `New`, and the cache after a `Set` or a
`Get` on such a cache. -/
inductive Created : Cache → Prop where
  | new (name : String) (c : Cache) : New name = .ok c → Created c
  | set (c c' : Cache) (key value : String) (err : Option bbolt.Error) :
      Created c → c.Set key value = some (c', err) → Created c'
  | get (c c' : Cache) (key value : String) (err : Option bbolt.Error) :
      Created c → c.Get key = some (c', value, err) → Created c'

/-- The cache `New("test")` returns, as in `Test_Cache`. -/
def testCache : Cache :=
  { File := { buckets := [("test", { pairs := [] })] }, Bucket := "test" }

/-- Run `Set` for each pair in turn, going on after a `Set` that returned an error;
`none` when a `Set` panicked. -/
def Cache.SetAll (c : Cache) : List (String × String) → Option Cache
  | [] => some c
  | (k, v) :: rest =>
    match c.Set k v with
    | none => none
    | some (c', _) => c'.SetAll rest

end cache

/-! ## `core/connections/ssh/auth.go` -/

namespace goph

/-- One SSH authentication method as `golang.org/x/crypto/ssh` builds it: a password, or
the public keys of a signer (a parsed private key, named here by its file). -/
inductive AuthMethod where
  | Password (pass : String)
  | PublicKeys (signer : String)
  deriving DecidableEq, Repr

/-- The type `goph.Auth`, a slice of SSH authentication methods (`nil` is `[]`). -/
abbrev Auth := List AuthMethod

/-- `goph.Password(pass)`. -/
def Password (pass : String) : Auth := [.Password pass]

/-- `goph.Key(prvFile, passphrase)`: reads and parses the private key file; `GetSigner` is
the library function doing so, given from outside. -/
def Key (GetSigner : String → String → Except String String) (prvFile passphrase : String) :
    Auth × Option String :=
  match GetSigner prvFile passphrase with
  | .error err => ([], some err)
  | .ok signer => ([.PublicKeys signer], none)

end goph

namespace terminal

/-- The type `AuthMethod`, a Go `int`. -/
abbrev AuthMethod := Int

/-- The constant `AUTH_PASSWORD`. -/
def AUTH_PASSWORD : AuthMethod := 0

/-- The constant `AUTH_KEY`. -/
def AUTH_KEY : AuthMethod := 1

/-- The struct `PasswordAuth`. -/
structure PasswordAuth where
  Password : String
  deriving DecidableEq, Repr

/-- The struct `KeyAuth`. -/
structure KeyAuth where
  Key : String
  KeyPassword : String
  deriving DecidableEq, Repr

/-- The struct `AuthOptions`. -/
structure AuthOptions where
  Method : AuthMethod
  Username : String
  Password : String
  Key : String
  KeyPassword : String
  deriving DecidableEq, Repr

/-- The interface `Auth`: the dynamic type of a value is `*PasswordAuth` or `*KeyAuth`, the
two types of the package with a `Backend` method. A nil interface value is `none` of
`Option Auth`. -/
inductive Auth where
  | PasswordAuth (a : PasswordAuth)
  | KeyAuth (a : KeyAuth)
  deriving DecidableEq, Repr

/-- `(*PasswordAuth).Backend()`. -/
def PasswordAuth.Backend (a : PasswordAuth) : goph.Auth × Option String :=
  (goph.Password a.Password, none)

/-- `(*KeyAuth).Backend()`. -/
def KeyAuth.Backend (GetSigner : String → String → Except String String) (a : KeyAuth) :
    goph.Auth × Option String :=
  goph.Key GetSigner a.Key a.KeyPassword

/-- `Auth.Backend()`, dispatched on the dynamic type. -/
def Auth.Backend (GetSigner : String → String → Except String String) :
    Auth → goph.Auth × Option String
  | .PasswordAuth a => a.Backend
  | .KeyAuth a => a.Backend GetSigner

/-- `NewSSHAuth(opts)`: the pair `(Auth, error)`; the error is its message. -/
def NewSSHAuth (opts : AuthOptions) : Option Auth × Option String :=
  if opts.Method = AUTH_PASSWORD then
    (some (.PasswordAuth { Password := opts.Password }), none)
  else if opts.Method = AUTH_KEY then
    (some (.KeyAuth { Key := opts.Key, KeyPassword := opts.KeyPassword }), none)
  else
    (none, some ("unsupported SSH auth method \x27" ++ toString opts.Method ++ "\x27"))

/-! ## `core/connections/ssh/ssh.go` -/

/-- The `*goph.Client` of a connection: whether `Close` has been called on it. -/
structure Client where
  closed : Bool
  deriving DecidableEq, Repr

/-- `(*goph.Client).Close()`. -/
def Client.Close (c : Client) : Client :=
  { c with closed := true }

/-- `(*goph.Client).Run(cmd)`: the combined output and the error. `peer` is what the remote
device answers to a command on an open connection; a closed client cannot open a session,
and the text given for that error stands for the one of the library. -/
def Client.Run (peer : String → String × Option String) (c : Client) (cmd : String) :
    String × Option String :=
  if c.closed then ("", some "ssh: client is closed") else peer cmd

/-- The struct `Connection` as `NewConnection` returns it, with a non-nil `Client`. -/
structure Connection where
  Auth : Auth
  Address : String
  Port : Nat
  Client : Client
  deriving DecidableEq, Repr

/-- `Connection.Run(cmd)`: the connection afterwards, `res` and `err`. The deferred
`conn.Client.Close()` runs on both returns. -/
def Connection.Run (peer : String → String × Option String) (conn : Connection)
    (cmd : String) : Connection × String × Option String :=
  let after : Connection := { conn with Client := conn.Client.Close }
  match conn.Client.Run peer cmd with
  | (_, some err) => (after, "", some err)
  | (b, none) => (after, b, none)

/-- A remote device for evaluating examples: it answers `show version` and fails every
other command after printing a message. -/
def examplePeer (cmd : String) : String × Option String :=
  if cmd = "show version" then ("version 1.0", none)
  else ("% Invalid input", some "Process exited with status 1")

/-- An established connection for evaluating examples. -/
def exampleConnection : Connection :=
  { Auth := .PasswordAuth { Password := "secret" },
    Address := "192.0.2.1",
    Port := 22,
    Client := { closed := false } }

end terminal

/-! ## `core/entities/query.go` -/

namespace entities

/-- The struct `QueryRequest`; the field `Type` is `Type_` here. -/
structure QueryRequest where
  Devices : List Nat
  Target : String
  Type_ : String
  deriving DecidableEq, Repr

/-- A `time.Time`: the instant, and whether a location is attached. The zero value has
instant `0` and no location; `time.Now()` attaches the local location. -/
structure Time where
  instant : Nat
  hasLoc : Bool
  deriving DecidableEq, Repr

/-- The struct `PlainQueryResponse`. `Runtime` is a `float64` in the source; the only value
it is given is the literal `30`, held here as a natural number. -/
structure PlainQueryResponse where
  Random : String
  Cached : Bool
  Runtime : Nat
  Timestamp : Time
  Format : String
  Output : String
  deriving DecidableEq, Repr

end entities

/-! ## `github.com/go-playground/validator`: the tags the structs carry -/

namespace validator

/-- The two baked-in validators whose answer comes from the Go library `net`: `ip`
(`net.ParseIP` accepts the string) and `cidr` (`net.ParseCIDR` accepts it). -/
structure Net where
  ip : String → Bool
  cidr : String → Bool

/-- A failed field: the field name and the tag that failed. -/
structure FieldError where
  Field : String
  Tag : String
  deriving DecidableEq, Repr

/-- Collect the failures of the fields whose check is `false`. -/
def failures : List (Bool × FieldError) → List FieldError
  | [] => []
  | (ok, e) :: rest => if ok then failures rest else e :: failures rest

/-- `validate.Struct(query)` for a `QueryRequest`: `min=1` on the slice `Devices`,
`cidr|ip` on `Target`, `required` on `Type`. An empty list is the `nil` error. -/
def StructQueryRequest (net : Net) (q : entities.QueryRequest) : List FieldError :=
  failures
    [ (decide (q.Devices.length ≥ 1), { Field := "Devices", Tag := "min" }),
      (net.cidr q.Target || net.ip q.Target, { Field := "Target", Tag := "cidr|ip" }),
      (decide (q.Type_ ≠ ""), { Field := "Type", Tag := "required" }) ]

/-- `validate.Struct(res)` for a `PlainQueryResponse`: `required` on `Random`, `Runtime`,
`Timestamp` and `Output` (the value is not the zero value), `boolean` on the bool `Cached`
(always passes), `oneof=application/json text/plain` on `Format`. -/
def StructPlainQueryResponse (r : entities.PlainQueryResponse) : List FieldError :=
  failures
    [ (decide (r.Random ≠ ""), { Field := "Random", Tag := "required" }),
      (true, { Field := "Cached", Tag := "boolean" }),
      (decide (r.Runtime ≠ 0), { Field := "Runtime", Tag := "required" }),
      (decide (r.Timestamp ≠ { instant := 0, hasLoc := false }),
        { Field := "Timestamp", Tag := "required" }),
      (decide (r.Format = "application/json" ∨ r.Format = "text/plain"),
        { Field := "Format", Tag := "oneof" }),
      (decide (r.Output ≠ ""), { Field := "Output", Tag := "required" }) ]

/-- A `Net` for evaluating examples: like Go it takes `192.0.2.1` for an IP address and
`192.0.2.0/24` for a CIDR block; it accepts nothing else. -/
def exampleNet : Net :=
  { ip := fun s => s == "192.0.2.1",
    cidr := fun s => s == "192.0.2.0/24" }

end validator

/-! ## `core/interfaces/query.go` -/

namespace interfaces

/-- The struct `QueryInterface`; the fiber context carries nothing the code reads. -/
structure QueryInterface where
  Request : entities.QueryRequest
  deriving DecidableEq, Repr

/-- `NewQueryInterface(ctx, req)`; its error is always `nil`. -/
def NewQueryInterface (req : entities.QueryRequest) :
    QueryInterface × Option (List validator.FieldError) :=
  ({ Request := req }, none)

/-- `QueryInterface.Query()`: `res` and `err`; `now` is the reading of `time.Now()`. -/
def QueryInterface.Query (_qi : QueryInterface) (now : Nat) :
    entities.PlainQueryResponse × Option (List validator.FieldError) :=
  let res : entities.PlainQueryResponse :=
    { Random := "random string",
      Cached := false,
      Runtime := 30,
      Timestamp := { instant := now, hasLoc := true },
      Format := "text/plain",
      Output := "some output" }
  match validator.StructPlainQueryResponse res with
  | [] => (res, none)
  | errs => (res, some errs)

end interfaces

/-! ## `core/controllers/query.go` -/

namespace controllers

/-- A call the controller makes into `core/interfaces`. -/
inductive Call where
  | NewQueryInterface (req : entities.QueryRequest)
  | Query (req : entities.QueryRequest)
  deriving DecidableEq, Repr

/-- What `QueryController` returns. -/
inductive Reply where
  /-- The error of `ctx.BodyParser`. -/
  | bodyError (msg : String)
  /-- The error of `validate.Struct` on a nil pointer. -/
  | invalidValidation
  /-- The error of `validate.Struct` or of `Query`. -/
  | validationErrors (errs : List validator.FieldError)
  /-- Status 200 with the response as JSON. -/
  | status200 (res : entities.PlainQueryResponse)
  deriving DecidableEq, Repr

/-- The calls made and the reply. -/
structure Outcome where
  calls : List Call
  reply : Reply
  deriving DecidableEq, Repr

/-- `QueryController(ctx)`. `body` is what `ctx.BodyParser(&query)` did: an error, or the
pointer `query` it left (`none` is nil, which a JSON `null` body leaves). -/
def QueryController (net : validator.Net) (now : Nat)
    (body : Except String (Option entities.QueryRequest)) : Outcome :=
  match body with
  | .error msg => { calls := [], reply := .bodyError msg }
  | .ok none => { calls := [], reply := .invalidValidation }
  | .ok (some query) =>
    match validator.StructQueryRequest net query with
    | e :: es => { calls := [], reply := .validationErrors (e :: es) }
    | [] =>
      match interfaces.NewQueryInterface query with
      | (_, some errs) => { calls := [.NewQueryInterface query], reply := .validationErrors errs }
      | (iface, none) =>
        match iface.Query now with
        | (_, some errs) =>
          { calls := [.NewQueryInterface query, .Query iface.Request],
            reply := .validationErrors errs }
        | (res, none) =>
          { calls := [.NewQueryInterface query, .Query iface.Request],
            reply := .status200 res }

/-- A string longer than every string of `known`, hence not one of them. -/
def freshType (known : List String) : String :=
  String.mk (List.replicate ((known.map String.length).sum + 1) (Char.ofNat 120))

end controllers

/-! ## `core/system/dirs.go` -/

namespace system

/-- What the process finds around it: `runtime.GOOS`, the results of `os.UserHomeDir()` and
`os.UserConfigDir()`, and the library function `path.Join`. -/
structure Env where
  GOOS : String
  UserHomeDir : Except String String
  UserConfigDir : Except String String
  Join : List String → String

/-- An error of `os.Stat`, `os.Mkdir` or the two directory lookups. -/
inductive Error where
  | ErrNotExist
  | ErrExist
  | other (msg : String)
  deriving DecidableEq, Repr

/-- `os.IsNotExist(err)`. -/
def IsNotExist : Error → Bool
  | .ErrNotExist => true
  | _ => false

/-- The filesystem: the directories that exist. -/
abbrev FS := List String

/-- `os.Stat(name)`, its error only: `nil` when the directory exists. -/
def Stat (fs : FS) (name : String) : Option Error :=
  if name ∈ fs then none else some .ErrNotExist

/-- `os.Mkdir(name, 0755)`: creates a missing directory. -/
def Mkdir (fs : FS) (name : String) : FS × Option Error :=
  if name ∈ fs then (fs, some .ErrExist) else (name :: fs, none)

/-- `GetLogDir()`: `loggingDir` and `err`. -/
def GetLogDir (env : Env) : String × Option Error :=
  let loggingDir := "/var/log/hyperglass"
  if env.GOOS = "windows" then
    match env.UserHomeDir with
    | .error msg => (loggingDir, some (.other msg))
    | .ok userDir => (env.Join [userDir, "AppData", "Local", "hyperglass", "logs"], none)
  else if env.GOOS = "darwin" then
    match env.UserHomeDir with
    | .error msg => (loggingDir, some (.other msg))
    | .ok userDir => (env.Join [userDir, "Library", "Logs", "hyperglass"], none)
  else (loggingDir, none)

/-- `GetAppDir()`: `appDir` and `err`. -/
def GetAppDir (env : Env) : String × Option Error :=
  let appDir := "/etc/hyperglass"
  match env.UserConfigDir with
  | .error msg => (appDir, some (.other msg))
  | .ok configDir =>
    if env.GOOS = "windows" then (env.Join [configDir, "hyperglass"], none)
    else if env.GOOS = "darwin" then (env.Join [configDir, "hyperglass"], none)
    else (appDir, none)

/-- `InitializeDirs()`: the filesystem afterwards and `err`. -/
def InitializeDirs (env : Env) (fs : FS) : FS × Option Error :=
  match GetLogDir env with
  | (_, some err) => (fs, some err)
  | (logDir, none) =>
    match GetAppDir env with
    | (_, some err) => (fs, some err)
    | (appDir, none) =>
      match Stat fs logDir with
      | some err =>
        if IsNotExist err then
          match Mkdir fs logDir with
          | (fs', some err') => (fs', some err')
          | (fs', none) => (fs', none)
        else (fs, some err)
      | none =>
        match Stat fs appDir with
        | some err =>
          if IsNotExist err then
            match Mkdir fs appDir with
            | (fs', some err') => (fs', some err')
            | (fs', none) => (fs', none)
          else (fs, some err)
        | none => (fs, none)

/-- A Linux host with a home directory; `path.Join` of clean elements joins with `/`. -/
def linuxEnv : Env :=
  { GOOS := "linux",
    UserHomeDir := .ok "/root",
    UserConfigDir := .ok "/root/.config",
    Join := fun elems => "/".intercalate elems }

end system

/-! ## Theorems: the cache store -/

namespace bbolt

theorem lookup_upsert_same (key value : String) (l : List (String × String)) :
    lookup key (upsert key value l) = some value := by
  induction l with
  | nil => simp [upsert, lookup]
  | cons p rest ih =>
    obtain ⟨k, v⟩ := p
    by_cases h : k = key
    · simp [upsert, lookup, h]
    · simp [upsert, lookup, h, ih]

theorem lookup_upsert_other (key other value : String) (l : List (String × String))
    (h : key ≠ other) : lookup other (upsert key value l) = lookup other l := by
  induction l with
  | nil => simp [upsert, lookup, h]
  | cons p rest ih =>
    obtain ⟨k, v⟩ := p
    by_cases hk : k = key
    · subst hk
      simp [upsert, lookup, h]
    · by_cases ho : k = other
      · subst ho
        simp [upsert, lookup, hk]
      · simp [upsert, lookup, hk, ho, ih]

theorem findBucket_replaceBucket (name : String) (b old : Bucket)
    (l : List (String × Bucket)) (h : findBucket name l = some old) :
    findBucket name (replaceBucket name b l) = some b := by
  induction l with
  | nil => simp [findBucket] at h
  | cons p rest ih =>
    obtain ⟨n, o⟩ := p
    by_cases hn : n = name
    · simp [replaceBucket, findBucket, hn]
    · simp only [findBucket, hn, if_false] at h
      simp [replaceBucket, findBucket, hn, ih h]

theorem utf8ByteSize_eq_zero (s : String) : s.utf8ByteSize = 0 ↔ s = "" := by
  constructor
  · intro h
    obtain ⟨l⟩ := s
    cases l with
    | nil => rfl
    | cons c cs =>
      exfalso
      have hc := Char.utf8Size_pos c
      simp only [String.utf8ByteSize, String.utf8ByteSize.go] at h
      omega
  · intro h
    subst h
    rfl

end bbolt

namespace cache

theorem Get_eq (c : Cache) (key : String) (b : bbolt.Bucket)
    (h : c.File.Bucket c.Bucket = some b) :
    c.Get key = some (c, (b.Get key).getD "", none) := by
  simp [Cache.Get, Cache.Transaction, bbolt.DB.View, h]

theorem Set_eq_error (c : Cache) (key value : String) (b : bbolt.Bucket) (e : bbolt.Error)
    (h : c.File.Bucket c.Bucket = some b) (hp : b.Put key value = .error e) :
    c.Set key value = some (c, some e) := by
  simp [Cache.Set, Cache.Transaction, bbolt.DB.Update, h, hp]

theorem Set_eq_ok (c : Cache) (key value : String) (b b' : bbolt.Bucket)
    (h : c.File.Bucket c.Bucket = some b) (hp : b.Put key value = .ok b') :
    c.Set key value =
      some ({ c with File := { buckets := bbolt.replaceBucket c.Bucket b' c.File.buckets } },
        none) := by
  simp [Cache.Set, Cache.Transaction, bbolt.DB.Update, h, hp]

theorem Put_ok_eq (b b' : bbolt.Bucket) (key value : String)
    (hp : b.Put key value = .ok b') : b' = { pairs := bbolt.upsert key value b.pairs } := by
  unfold bbolt.Bucket.Put at hp
  split_ifs at hp
  injection hp with hp
  exact hp.symm

theorem Put_ok_of_sizes (b : bbolt.Bucket) (key value : String) (hk0 : key ≠ "")
    (hk : key.utf8ByteSize ≤ bbolt.MaxKeySize) (hv : value.utf8ByteSize ≤ bbolt.MaxValueSize) :
    b.Put key value = .ok { pairs := bbolt.upsert key value b.pairs } := by
  have h0 : ¬ key.utf8ByteSize = 0 := fun h => hk0 ((bbolt.utf8ByteSize_eq_zero key).1 h)
  have h1 : ¬ key.utf8ByteSize > bbolt.MaxKeySize := by omega
  have h2 : ¬ value.utf8ByteSize > bbolt.MaxValueSize := by omega
  simp [bbolt.Bucket.Put, h0, h1, h2]

theorem New_bucket (name : String) (c : Cache) (h : New name = .ok c) :
    c.File.Bucket c.Bucket = some { pairs := [] } := by
  unfold New bbolt.DB.CreateBucket at h
  simp only [bbolt.findBucket, Option.isSome_none, List.nil_append] at h
  split_ifs at h
  simp only [Except.ok.injEq] at h
  subst h
  simp [bbolt.DB.Bucket, bbolt.findBucket]

theorem Ready_iff (c : Cache) : c.Ready = true ↔ ∃ b, c.File.Bucket c.Bucket = some b := by
  simp [Cache.Ready, Option.isSome_iff_exists]

theorem New_ready (name : String) (c : Cache) (h : New name = .ok c) : c.Ready = true :=
  (Ready_iff c).2 ⟨_, New_bucket name c h⟩

/-- What `Set` does on a cache whose bucket is `b`: it returns the error of `Put` and leaves
the cache as it is, or returns `nil` and leaves a cache whose bucket holds the new pair. -/
theorem Set_cases (c : Cache) (key value : String) (b : bbolt.Bucket)
    (h : c.File.Bucket c.Bucket = some b) :
    (∃ e, b.Put key value = .error e ∧ c.Set key value = some (c, some e)) ∨
    (∃ c', b.Put key value = .ok { pairs := bbolt.upsert key value b.pairs } ∧
      c.Set key value = some (c', none) ∧
      c'.File.Bucket c'.Bucket = some { pairs := bbolt.upsert key value b.pairs }) := by
  cases hp : b.Put key value with
  | error e => exact Or.inl ⟨e, rfl, Set_eq_error c key value b e h hp⟩
  | ok b' =>
    have hb := Put_ok_eq b b' key value hp
    subst hb
    refine Or.inr ⟨_, rfl, Set_eq_ok c key value b _ h hp, ?_⟩
    exact bbolt.findBucket_replaceBucket c.Bucket _ b c.File.buckets h

theorem Set_ready (c c' : Cache) (key value : String) (err : Option bbolt.Error)
    (hc : c.Ready = true) (h : c.Set key value = some (c', err)) : c'.Ready = true := by
  obtain ⟨b, hb⟩ := (Ready_iff c).1 hc
  rcases Set_cases c key value b hb with ⟨e, _, hs⟩ | ⟨c2, _, hs, hb2⟩
  · rw [hs] at h
    simp only [Option.some.injEq, Prod.mk.injEq] at h
    rw [← h.1]
    exact hc
  · rw [hs] at h
    simp only [Option.some.injEq, Prod.mk.injEq] at h
    rw [← h.1]
    exact (Ready_iff c2).2 ⟨_, hb2⟩

theorem Get_ready (c c' : Cache) (key value : String) (err : Option bbolt.Error)
    (hc : c.Ready = true) (h : c.Get key = some (c', value, err)) : c'.Ready = true := by
  obtain ⟨b, hb⟩ := (Ready_iff c).1 hc
  rw [Get_eq c key b hb] at h
  simp only [Option.some.injEq, Prod.mk.injEq] at h
  rw [← h.1]
  exact hc

theorem Created_ready (c : Cache) (hc : Created c) : c.Ready = true := by
  induction hc with
  | new name c h => exact New_ready name c h
  | set c c' key value err _ h ih => exact Set_ready c c' key value err ih h
  | get c c' key value err _ h ih => exact Get_ready c c' key value err ih h

theorem Created_bucket (c : Cache) (hc : Created c) :
    ∃ b, c.File.Bucket c.Bucket = some b :=
  (Ready_iff c).1 (Created_ready c hc)

theorem testCache_created : Created testCache :=
  Created.new "test" testCache rfl

/-- C1. On a cache made by `New` (and used since), `Set(key, value)` returns, and when it
returns no error the `Get(key)` right after it returns exactly `value` and no error. -/
theorem Set_then_Get (c : Cache) (key value : String) (hc : Created c) :
    ∃ c' err, c.Set key value = some (c', err) ∧
      (err = none → c'.Get key = some (c', value, none)) := by
  obtain ⟨b, hb⟩ := Created_bucket c hc
  rcases Set_cases c key value b hb with ⟨e, _, hs⟩ | ⟨c2, _, hs, hb2⟩
  · exact ⟨c, some e, hs, fun h => by simp at h⟩
  · refine ⟨c2, none, hs, fun _ => ?_⟩
    rw [Get_eq c2 key _ hb2]
    simp [bbolt.Bucket.Get, bbolt.lookup_upsert_same]

/-- Witness of C1: the values of `Test_Cache`. -/
theorem Set_then_Get_witness :
    Created testCache ∧
    ∃ c' err, testCache.Set "test-key" "test-value" = some (c', err) ∧
      (err = none → c'.Get "test-key" = some (c', "test-value", none)) :=
  ⟨testCache_created, Set_then_Get testCache "test-key" "test-value" testCache_created⟩

theorem SetAll_absent (sets : List (String × String)) (key : String)
    (hkey : key ∉ sets.map Prod.fst) (c : Cache) (b : bbolt.Bucket)
    (hb : c.File.Bucket c.Bucket = some b) (hl : bbolt.lookup key b.pairs = none) :
    ∃ c' b', c.SetAll sets = some c' ∧ c'.File.Bucket c'.Bucket = some b' ∧
      bbolt.lookup key b'.pairs = none := by
  induction sets generalizing c b with
  | nil => exact ⟨c, b, rfl, hb, hl⟩
  | cons p rest ih =>
    obtain ⟨k, v⟩ := p
    simp only [List.map_cons, List.mem_cons, not_or] at hkey
    have hne : k ≠ key := fun e => hkey.1 e.symm
    rcases Set_cases c k v b hb with ⟨e, _, hs⟩ | ⟨c2, _, hs, hb2⟩
    · obtain ⟨c', b', h1, h2, h3⟩ := ih hkey.2 c b hb hl
      exact ⟨c', b', by simp [Cache.SetAll, hs, h1], h2, h3⟩
    · have hl2 : bbolt.lookup key (bbolt.upsert k v b.pairs) = none := by
        rw [bbolt.lookup_upsert_other k key v b.pairs hne]
        exact hl
      obtain ⟨c', b', h1, h2, h3⟩ := ih hkey.2 c2 _ hb2 hl2
      exact ⟨c', b', by simp [Cache.SetAll, hs, h1], h2, h3⟩

/-- C2, amended. On a cache made by `New`, after any sequence of `Set` calls, `Get` of a
key none of them wrote does not panic and returns the empty string with a nil error. -/
theorem Get_absent (name : String) (c0 : Cache) (sets : List (String × String))
    (key : String) (hnew : New name = .ok c0) (hkey : key ∉ sets.map Prod.fst) :
    ∃ c, c0.SetAll sets = some c ∧ c.Get key = some (c, "", none) := by
  have hb0 := New_bucket name c0 hnew
  obtain ⟨c, b, h1, h2, h3⟩ := SetAll_absent sets key hkey c0 _ hb0 rfl
  refine ⟨c, h1, ?_⟩
  rw [Get_eq c key b h2]
  simp [bbolt.Bucket.Get, h3]

/-- Witness of C2, amended: `"other"` after two `Set` calls on `New("test")`. -/
theorem Get_absent_witness :
    New "test" = .ok testCache ∧
    "other" ∉ [("test-key", "test-value"), ("k", "v")].map Prod.fst ∧
    ∃ c, testCache.SetAll [("test-key", "test-value"), ("k", "v")] = some c ∧
      c.Get "other" = some (c, "", none) :=
  ⟨rfl, by decide,
    Get_absent "test" testCache [("test-key", "test-value"), ("k", "v")] "other" rfl
      (by decide)⟩

/-- Counterexample to C2 as stated: after `Set("a", "")` on `New("test")`, `Get("a")` of the
stored empty string and `Get("b")` of a key never written return the same value and the same
nil error, so "not found" cannot be told from a stored empty string. -/
theorem Get_absent_same_as_stored_empty :
    ∃ c, New "test" = .ok testCache ∧
      testCache.Set "a" "" = some (c, none) ∧
      "b" ∉ [("a", "")].map Prod.fst ∧
      c.Get "a" = some (c, "", none) ∧
      c.Get "b" = some (c, "", none) :=
  ⟨{ File := { buckets := [("test", { pairs := [("a", "")] })] }, Bucket := "test" },
    rfl, by decide, by decide, by decide, by decide⟩

/-- C3, amended. On a cache made by `New` (and used since), for a key that is not blank and
at most `MaxKeySize` bytes long and values at most `MaxValueSize` bytes long,
`Set(key, v1)` and then `Set(key, v2)` both return no error and the `Get(key)` after them
returns `v2`, whether or not the key was there before. -/
theorem Set_Set_Get (c : Cache) (key v1 v2 : String) (hc : Created c) (hk0 : key ≠ "")
    (hk : key.utf8ByteSize ≤ bbolt.MaxKeySize)
    (h1 : v1.utf8ByteSize ≤ bbolt.MaxValueSize)
    (h2 : v2.utf8ByteSize ≤ bbolt.MaxValueSize) :
    ∃ c1 c2, c.Set key v1 = some (c1, none) ∧ c1.Set key v2 = some (c2, none) ∧
      c2.Get key = some (c2, v2, none) := by
  obtain ⟨b, hb⟩ := Created_bucket c hc
  rcases Set_cases c key v1 b hb with ⟨e, hp, _⟩ | ⟨c1, _, hs1, hb1⟩
  · rw [Put_ok_of_sizes b key v1 hk0 hk h1] at hp
    simp at hp
  · rcases Set_cases c1 key v2 _ hb1 with ⟨e, hp, _⟩ | ⟨c2, _, hs2, hb2⟩
    · rw [Put_ok_of_sizes _ key v2 hk0 hk h2] at hp
      simp at hp
    · refine ⟨c1, c2, hs1, hs2, ?_⟩
      rw [Get_eq c2 key _ hb2]
      simp [bbolt.Bucket.Get, bbolt.lookup_upsert_same]

/-- Witness of C3, amended. -/
theorem Set_Set_Get_witness :
    Created testCache ∧
    ∃ c1 c2, testCache.Set "test-key" "one" = some (c1, none) ∧
      c1.Set "test-key" "two" = some (c2, none) ∧
      c2.Get "test-key" = some (c2, "two", none) :=
  ⟨testCache_created,
    Set_Set_Get testCache "test-key" "one" "two" testCache_created (by decide) (by decide)
      (by decide) (by decide)⟩

/-- Counterexample to C3 as stated: on `New("test")`, `Set` with the blank key does not
succeed; it returns `ErrKeyRequired` and stores nothing. -/
theorem Set_blank_key_fails :
    New "test" = .ok testCache ∧
    testCache.Set "" "v1" = some (testCache, some .ErrKeyRequired) :=
  ⟨rfl, by decide⟩

/-- C4. On a cache made by `New` (and used since), for keys `k ≠ k2`: `Set(k, v)` returns,
`Get(k2)` gives the same value and error after it as before it, and a `Get` of any key
returns the cache as it was. -/
theorem Set_frame (c : Cache) (k k2 v : String) (hc : Created c) (hne : k ≠ k2) :
    (∃ c' err value gerr, c.Set k v = some (c', err) ∧
      c.Get k2 = some (c, value, gerr) ∧ c'.Get k2 = some (c', value, gerr)) ∧
    (∀ k3, ∃ value gerr, c.Get k3 = some (c, value, gerr)) := by
  obtain ⟨b, hb⟩ := Created_bucket c hc
  refine ⟨?_, fun k3 => ⟨_, _, Get_eq c k3 b hb⟩⟩
  rcases Set_cases c k v b hb with ⟨e, _, hs⟩ | ⟨c2, _, hs, hb2⟩
  · exact ⟨c, some e, _, _, hs, Get_eq c k2 b hb, Get_eq c k2 b hb⟩
  · refine ⟨c2, none, _, _, hs, Get_eq c k2 b hb, ?_⟩
    rw [Get_eq c2 k2 _ hb2]
    simp [bbolt.Bucket.Get, bbolt.lookup_upsert_other k k2 v b.pairs hne]

/-- Witness of C4. -/
theorem Set_frame_witness :
    Created testCache ∧ "a" ≠ "b" ∧
    (∃ c' err value gerr, testCache.Set "a" "v" = some (c', err) ∧
      testCache.Get "b" = some (testCache, value, gerr) ∧
      c'.Get "b" = some (c', value, gerr)) ∧
    (∀ k3, ∃ value gerr, testCache.Get k3 = some (testCache, value, gerr)) :=
  ⟨testCache_created, by decide,
    Set_frame testCache "a" "b" "v" testCache_created (by decide)⟩

end cache

/-! ## Theorems: SSH authentication and connection -/

namespace terminal

/-- C5. `NewSSHAuth` returns a `PasswordAuth` holding `opts.Password` when `Method` is
`AUTH_PASSWORD`, a `KeyAuth` holding `opts.Key` and `opts.KeyPassword` when `Method` is
`AUTH_KEY`, and a nil `Auth` with the error "unsupported SSH auth method" for every other
`Method`; so it returns a variant or an error, never both and never neither. -/
theorem NewSSHAuth_variants (opts : AuthOptions) :
    (opts.Method = AUTH_PASSWORD →
      NewSSHAuth opts = (some (.PasswordAuth { Password := opts.Password }), none)) ∧
    (opts.Method = AUTH_KEY →
      NewSSHAuth opts =
        (some (.KeyAuth { Key := opts.Key, KeyPassword := opts.KeyPassword }), none)) ∧
    (opts.Method ≠ AUTH_PASSWORD → opts.Method ≠ AUTH_KEY →
      NewSSHAuth opts =
        (none, some ("unsupported SSH auth method \x27" ++ toString opts.Method ++ "\x27"))) ∧
    ((∃ a, NewSSHAuth opts = (some a, none)) ∨ (∃ msg, NewSSHAuth opts = (none, some msg))) := by
  have hne : AUTH_PASSWORD ≠ AUTH_KEY := by decide
  by_cases hp : opts.Method = AUTH_PASSWORD
  · simp [NewSSHAuth, hp, hne]
  · by_cases hk : opts.Method = AUTH_KEY
    · simp [NewSSHAuth, hk, hne.symm]
    · simp [NewSSHAuth, hp, hk]

/-- Witness of C5: one call for each of the methods `0`, `1` and `7`. -/
theorem NewSSHAuth_variants_witness :
    NewSSHAuth { Method := 0, Username := "u", Password := "p", Key := "", KeyPassword := "" }
      = (some (.PasswordAuth { Password := "p" }), none) ∧
    NewSSHAuth { Method := 1, Username := "u", Password := "", Key := "id_rsa", KeyPassword := "x" }
      = (some (.KeyAuth { Key := "id_rsa", KeyPassword := "x" }), none) ∧
    (NewSSHAuth { Method := 7, Username := "u", Password := "p", Key := "k", KeyPassword := "" }).1
      = none :=
  ⟨(NewSSHAuth_variants _).1 rfl,
    (NewSSHAuth_variants _).2.1 rfl,
    congrArg Prod.fst ((NewSSHAuth_variants _).2.2.1 (by decide) (by decide))⟩

/-- C6. `Run` on an established connection leaves the client closed, whatever the command
does: when the command succeeds `Run` returns its output and a nil error, and when it
fails `Run` returns the empty string and the error. -/
theorem Run_closes (peer : String → String × Option String) (conn : Connection)
    (cmd : String) (hopen : conn.Client.closed = false) :
    (conn.Run peer cmd).1.Client.closed = true ∧
    (∀ b, peer cmd = (b, none) → (conn.Run peer cmd).2 = (b, none)) ∧
    (∀ b err, peer cmd = (b, some err) → (conn.Run peer cmd).2 = ("", some err)) := by
  refine ⟨?_, ?_, ?_⟩
  · unfold Connection.Run
    split <;> rfl
  · intro b h
    simp [Connection.Run, Client.Run, hopen, h]
  · intro b err h
    simp [Connection.Run, Client.Run, hopen, h]

/-- Witness of C6: a command that succeeds and a command that fails. -/
theorem Run_closes_witness :
    exampleConnection.Client.closed = false ∧
    examplePeer "show version" = ("version 1.0", none) ∧
    exampleConnection.Run examplePeer "show version"
      = ({ exampleConnection with Client := { closed := true } }, "version 1.0", none) ∧
    (exampleConnection.Run examplePeer "show bogus").1.Client.closed = true ∧
    (exampleConnection.Run examplePeer "show bogus").2
      = ("", some "Process exited with status 1") :=
  ⟨rfl, by decide, by decide,
    (Run_closes examplePeer exampleConnection "show bogus" rfl).1,
    (Run_closes examplePeer exampleConnection "show bogus" rfl).2.2 "% Invalid input" _
      (by decide)⟩

end terminal

/-! ## Theorems: the query controller and the query interface -/

namespace controllers

open entities validator interfaces

/-- `validate.Struct` passes a request exactly when the three tags hold. -/
theorem StructQueryRequest_eq_nil (net : Net) (q : QueryRequest) :
    StructQueryRequest net q = [] ↔
      q.Devices ≠ [] ∧ (net.ip q.Target = true ∨ net.cidr q.Target = true) ∧ q.Type_ ≠ "" := by
  have hlen : 1 ≤ q.Devices.length ↔ q.Devices ≠ [] := by
    cases q.Devices <;> simp
  unfold StructQueryRequest
  by_cases h1 : q.Devices = [] <;> by_cases h2 : net.cidr q.Target = true <;>
    by_cases h3 : net.ip q.Target = true <;> by_cases h4 : q.Type_ = "" <;>
    simp [failures, hlen, h1, h2, h3, h4]

/-- The response `Query` builds passes its own validation, at every clock reading. -/
theorem Query_eq (qi : QueryInterface) (now : Nat) :
    qi.Query now =
      ({ Random := "random string", Cached := false, Runtime := 30,
         Timestamp := { instant := now, hasLoc := true }, Format := "text/plain",
         Output := "some output" }, none) := by
  simp [QueryInterface.Query, StructPlainQueryResponse, failures]

/-- What the controller does with a request that passed validation. -/
theorem QueryController_of_valid (net : Net) (now : Nat) (q : QueryRequest)
    (h : StructQueryRequest net q = []) :
    QueryController net now (.ok (some q)) =
      { calls := [.NewQueryInterface q, .Query q],
        reply := .status200
          { Random := "random string", Cached := false, Runtime := 30,
            Timestamp := { instant := now, hasLoc := true }, Format := "text/plain",
            Output := "some output" } } := by
  simp [QueryController, h, NewQueryInterface, Query_eq]

/-- What the controller does with a request that failed validation. -/
theorem QueryController_of_invalid (net : Net) (now : Nat) (q : QueryRequest)
    (h : StructQueryRequest net q ≠ []) :
    QueryController net now (.ok (some q)) =
      { calls := [], reply := .validationErrors (StructQueryRequest net q) } := by
  cases hs : StructQueryRequest net q with
  | nil => exact absurd hs h
  | cons e es => simp [QueryController, hs]

theorem length_le_sum_of_mem (t : String) (known : List String) (h : t ∈ known) :
    t.length ≤ (known.map String.length).sum := by
  induction known with
  | nil => simp at h
  | cons a rest ih =>
    simp only [List.mem_cons] at h
    simp only [List.map_cons, List.sum_cons]
    rcases h with h | h
    · subst h
      omega
    · have := ih h
      omega

theorem freshType_not_mem (known : List String) : freshType known ∉ known := by
  intro h
  have hle := length_le_sum_of_mem _ known h
  simp [freshType, String.length] at hle

theorem freshType_ne_empty (known : List String) : freshType known ≠ "" := by
  intro h
  have hl : (freshType known).length = 0 := by rw [h]; rfl
  simp [freshType, String.length] at hl

/-- C7, amended. For every parsed request the controller returns the validation errors
without calling `NewQueryInterface` or `Query` whenever `Devices` is empty, or `Target` is
neither an IP address nor a CIDR block, or `Type` is empty; and `Query` is called exactly
when `Devices` is not empty, `Target` is an IP address or a CIDR block and `Type` is not
empty. -/
theorem QueryController_validates (net : Net) (now : Nat) (q : QueryRequest) :
    (q.Devices = [] ∨ (net.ip q.Target = false ∧ net.cidr q.Target = false) ∨ q.Type_ = "" →
      (QueryController net now (.ok (some q))).calls = [] ∧
      ∃ e es, (QueryController net now (.ok (some q))).reply = .validationErrors (e :: es)) ∧
    ((∃ r, Call.Query r ∈ (QueryController net now (.ok (some q))).calls) ↔
      q.Devices ≠ [] ∧ (net.ip q.Target = true ∨ net.cidr q.Target = true) ∧ q.Type_ ≠ "") := by
  by_cases hv : StructQueryRequest net q = []
  · have hq := (StructQueryRequest_eq_nil net q).1 hv
    rw [QueryController_of_valid net now q hv]
    constructor
    · intro h
      exfalso
      rcases h with h | ⟨h1, h2⟩ | h
      · exact hq.1 h
      · rcases hq.2.1 with h3 | h3
        · rw [h1] at h3
          exact Bool.noConfusion h3
        · rw [h2] at h3
          exact Bool.noConfusion h3
      · exact hq.2.2 h
    · exact ⟨fun _ => hq, fun _ => ⟨q, by simp⟩⟩
  · have hq : ¬ (q.Devices ≠ [] ∧ (net.ip q.Target = true ∨ net.cidr q.Target = true) ∧
        q.Type_ ≠ "") := fun h => hv ((StructQueryRequest_eq_nil net q).2 h)
    rw [QueryController_of_invalid net now q hv]
    constructor
    · intro _
      refine ⟨rfl, ?_⟩
      cases hs : StructQueryRequest net q with
      | nil => exact absurd hs hv
      | cons e es => exact ⟨e, es, rfl⟩
    · constructor
      · rintro ⟨r, hr⟩
        simp at hr
      · intro h
        exact absurd h hq

/-- Witness of C7, amended: a request with no devices, and a request with an empty
type. -/
theorem QueryController_validates_witness :
    (QueryController exampleNet 1
      (.ok (some { Devices := [], Target := "192.0.2.1", Type_ := "ping" }))).calls = [] ∧
    (QueryController exampleNet 1
      (.ok (some { Devices := [1], Target := "192.0.2.1", Type_ := "" }))).calls = [] :=
  ⟨((QueryController_validates exampleNet 1
      { Devices := [], Target := "192.0.2.1", Type_ := "ping" }).1 (Or.inl rfl)).1,
   ((QueryController_validates exampleNet 1
      { Devices := [1], Target := "192.0.2.1", Type_ := "" }).1 (Or.inr (Or.inr rfl))).1⟩

/-- Counterexample to C7 as stated: the type is never compared with a list of known query
types. The request with type `no-such-query-type` reaches `Query` and is answered with
status 200; and whatever finite list of known types is chosen, a type outside it reaches
`Query`. -/
theorem QueryController_unknown_type_reaches_Query :
    QueryController exampleNet 1
      (.ok (some { Devices := [1], Target := "192.0.2.1", Type_ := "no-such-query-type" })) =
      { calls :=
          [.NewQueryInterface
              { Devices := [1], Target := "192.0.2.1", Type_ := "no-such-query-type" },
            .Query { Devices := [1], Target := "192.0.2.1", Type_ := "no-such-query-type" }],
        reply := .status200
          { Random := "random string", Cached := false, Runtime := 30,
            Timestamp := { instant := 1, hasLoc := true }, Format := "text/plain",
            Output := "some output" } } ∧
    ∀ known : List String, ∃ t, t ∉ known ∧
      Call.Query { Devices := [1], Target := "192.0.2.1", Type_ := t } ∈
        (QueryController exampleNet 1
          (.ok (some { Devices := [1], Target := "192.0.2.1", Type_ := t }))).calls := by
  refine ⟨by decide, fun known => ⟨freshType known, freshType_not_mem known, ?_⟩⟩
  have hv : StructQueryRequest exampleNet
      { Devices := [1], Target := "192.0.2.1", Type_ := freshType known } = [] := by
    rw [StructQueryRequest_eq_nil]
    have hip : exampleNet.ip "192.0.2.1" = true := by decide
    exact ⟨by simp, Or.inl hip, freshType_ne_empty known⟩
  rw [QueryController_of_valid exampleNet 1 _ hv]
  simp

/-- C8, amended. For two validated requests with the same fingerprint inputs (the same set
of device ids in any order, the same target, the same type), both runs are answered with
status 200, the second response has the same `Output` as the first, and its `Cached` flag
is `false`. -/
theorem Query_twice (net : Net) (now1 now2 : Nat) (q1 q2 : QueryRequest)
    (_hdev : ∀ d, d ∈ q1.Devices ↔ d ∈ q2.Devices) (_htarget : q1.Target = q2.Target)
    (_htype : q1.Type_ = q2.Type_)
    (hv1 : StructQueryRequest net q1 = []) (hv2 : StructQueryRequest net q2 = []) :
    ∃ r1 r2, (QueryController net now1 (.ok (some q1))).reply = .status200 r1 ∧
      (QueryController net now2 (.ok (some q2))).reply = .status200 r2 ∧
      r2.Output = r1.Output ∧ r2.Cached = false := by
  rw [QueryController_of_valid net now1 q1 hv1, QueryController_of_valid net now2 q2 hv2]
  exact ⟨_, _, rfl, rfl, rfl, rfl⟩

/-- Witness of C8, amended: devices `[1, 2]` and `[2, 1]`. -/
theorem Query_twice_witness :
    StructQueryRequest exampleNet
      { Devices := [1, 2], Target := "192.0.2.0/24", Type_ := "bgp-route" } = [] ∧
    ∃ r1 r2,
      (QueryController exampleNet 5
        (.ok (some { Devices := [1, 2], Target := "192.0.2.0/24", Type_ := "bgp-route" }))).reply
        = .status200 r1 ∧
      (QueryController exampleNet 9
        (.ok (some { Devices := [2, 1], Target := "192.0.2.0/24", Type_ := "bgp-route" }))).reply
        = .status200 r2 ∧
      r2.Output = r1.Output ∧ r2.Cached = false :=
  ⟨by decide,
    Query_twice exampleNet 5 9
      { Devices := [1, 2], Target := "192.0.2.0/24", Type_ := "bgp-route" }
      { Devices := [2, 1], Target := "192.0.2.0/24", Type_ := "bgp-route" }
      (fun d => by simp [or_comm]) rfl rfl (by decide) (by decide)⟩

/-- Counterexample to C8 as stated: the request of the spec's example scenario, run at
clock reading 5 and again at 9, is answered the second time with `Cached` false. -/
theorem Query_second_not_cached :
    (QueryController exampleNet 5
      (.ok (some { Devices := [1], Target := "192.0.2.0/24", Type_ := "bgp-route" }))).reply
      = .status200
          { Random := "random string", Cached := false, Runtime := 30,
            Timestamp := { instant := 5, hasLoc := true }, Format := "text/plain",
            Output := "some output" } ∧
    (QueryController exampleNet 9
      (.ok (some { Devices := [1], Target := "192.0.2.0/24", Type_ := "bgp-route" }))).reply
      = .status200
          { Random := "random string", Cached := false, Runtime := 30,
            Timestamp := { instant := 9, hasLoc := true }, Format := "text/plain",
            Output := "some output" } :=
  ⟨by decide, by decide⟩

end controllers

/-! ## Theorems: the directory bootstrap -/

namespace system

/-- Whenever both lookups succeed and neither directory exists, `InitializeDirs` creates
the log directory only and returns a nil error. -/
theorem InitializeDirs_both_missing (env : Env) (fs : FS) (logDir appDir : String)
    (hlog : GetLogDir env = (logDir, none)) (happ : GetAppDir env = (appDir, none))
    (hl : logDir ∉ fs) (ha : appDir ∉ fs) (hne : appDir ≠ logDir) :
    InitializeDirs env fs = (logDir :: fs, none) ∧ appDir ∉ (InitializeDirs env fs).1 := by
  have h : InitializeDirs env fs = (logDir :: fs, none) := by
    simp [InitializeDirs, hlog, happ, Stat, Mkdir, hl, IsNotExist]
  rw [h]
  exact ⟨rfl, by simp [hne, ha]⟩

/-- C10, the code at the failing input. On a Linux host where neither
`/var/log/hyperglass` nor `/etc/hyperglass` exists, `InitializeDirs` returns a nil error
having created the log directory only: the application directory does not exist
afterwards. -/
theorem InitializeDirs_skips_appDir :
    GetLogDir linuxEnv = ("/var/log/hyperglass", none) ∧
    GetAppDir linuxEnv = ("/etc/hyperglass", none) ∧
    InitializeDirs linuxEnv ["/", "/etc", "/var", "/var/log"] =
      (["/var/log/hyperglass", "/", "/etc", "/var", "/var/log"], none) ∧
    "/etc/hyperglass" ∉ (InitializeDirs linuxEnv ["/", "/etc", "/var", "/var/log"]).1 := by
  refine ⟨by decide, by decide, by decide, by decide⟩

end system

end Hyperglass
